import Mathlib

/- Shallow embedding of the spotify-stream-count-hacking backend:
   persistence (src/backend/services/cockroach.py), token management
   (src/backend/services/token_manager.py), harvest retry and response parsing
   (src/backend/services/unofficial_spotify.py, src/backend/services/official_spotify.py)
   and the batch pipeline (src/backend/tasks.py).  Python time floats are
   modelled as rationals; database tables as lists of row records; exceptions
   as Except/Option values. -/

namespace StreamCount

/-! ## Database model (services/cockroach.py)

Tables are lists of rows.  `albums` has primary key `album_id`, `tracks` has
primary key `track_id`, and `streams` has the natural unique key
`(track_id, play_count, album_id)` plus a `timestamp` column filled by the
database at insert time. -/

structure YMDDate where
  year : Nat
  month : Nat
  day : Nat
  deriving DecidableEq

structure AlbumRow where
  album_id : String
  artist_id : String
  name : String
  cover_art : String
  release_date : Option YMDDate
  artist_name : String
  deriving DecidableEq

structure TrackRow where
  track_id : String
  name : String
  artist_id : String
  album_id : String
  deriving DecidableEq

structure StreamRow where
  track_id : String
  play_count : Int
  album_id : String
  timestamp : Int
  deriving DecidableEq

structure DB where
  albums : List AlbumRow
  tracks : List TrackRow
  streams : List StreamRow
  deriving DecidableEq

/-- `DatabaseService.save_album`: INSERT INTO albums ... ON CONFLICT (album_id)
DO UPDATE SET every non-key field.  On a list with the primary-key invariant
this replaces the (unique) row with that `album_id`, otherwise appends. -/
def saveAlbum : List AlbumRow → AlbumRow → List AlbumRow
  | [], r => [r]
  | r0 :: rest, r =>
      if r0.album_id = r.album_id then r :: rest else r0 :: saveAlbum rest r

/-- One row of the batch in `DatabaseService.batch_save_tracks`:
INSERT INTO tracks ... ON CONFLICT (track_id) DO UPDATE SET name, artist_id,
album_id. -/
def upsertTrack : List TrackRow → TrackRow → List TrackRow
  | [], r => [r]
  | r0 :: rest, r =>
      if r0.track_id = r.track_id then r :: rest else r0 :: upsertTrack rest r

/-- `DatabaseService.batch_save_tracks` applied to a prepared batch (the
returned count is the batch length, taken at the call site). -/
def applyTracks (rows : List TrackRow) (batch : List TrackRow) : List TrackRow :=
  batch.foldl upsertTrack rows

/-- The projection of a tracks table to its primary-key column. -/
def trackKeys (rows : List TrackRow) : List String :=
  rows.map TrackRow.track_id

/-- Whether a streams row with the natural key `(track_id, play_count,
album_id)` is already present. -/
def hasStreamKey (rows : List StreamRow) (t : String) (pc : Int) (al : String) : Bool :=
  rows.any fun s => s.track_id == t && s.play_count == pc && s.album_id == al

/-- One row of `DatabaseService.batch_save_stream_counts`:
INSERT INTO streams (track_id, play_count, album_id) VALUES ...
ON CONFLICT (track_id, play_count, album_id) DO NOTHING.  The database fills
`timestamp` with the insertion time `now`. -/
def insertStream (rows : List StreamRow) (t : String) (pc : Int) (al : String)
    (now : Int) : List StreamRow :=
  if hasStreamKey rows t pc al then rows else rows ++ [⟨t, pc, al, now⟩]

/-- `DatabaseService.batch_save_stream_counts` applied to a prepared batch of
`(track_id, play_count, album_id)` values (the returned count is the batch
length, taken at the call site). -/
def applyStreams (rows : List StreamRow) (batch : List (String × Int × String))
    (now : Int) : List StreamRow :=
  batch.foldl (fun acc k => insertStream acc k.1 k.2.1 k.2.2 now) rows

/-- The `album_data` dict handed to `DatabaseService.save_complete_album`. -/
structure AlbumData where
  album_id : String
  artist_id : String
  album_name : String
  cover_art : String
  release_date : Option YMDDate
  artist_name : String
  deriving DecidableEq

/-- One entry of `tracks_data` (only `track_id` and `name` are read;
`artist_id` and `album_id` are rebuilt from `album_data`). -/
structure TrackIn where
  track_id : String
  name : String
  deriving DecidableEq

/-- One entry of `stream_data` (only `track_id` and `play_count` are read;
`album_id` is rebuilt from `album_data`). -/
structure StreamIn where
  track_id : String
  play_count : Int
  deriving DecidableEq

/-- The summary dict returned by `save_complete_album`. -/
structure SaveResult where
  album_id : String
  artist_id : String
  tracks_count : Nat
  streams_count : Nat
  deriving DecidableEq

/-- `DatabaseService.save_complete_album`, happy path: album upsert, track
batch upsert, stream batch insert, in one transaction, returning the batch
lengths as counts. -/
def save_complete_album (db : DB) (a : AlbumData) (tracks_data : List TrackIn)
    (stream_data : List StreamIn) (now : Int) : DB × SaveResult :=
  let albums1 := saveAlbum db.albums
    ⟨a.album_id, a.artist_id, a.album_name, a.cover_art, a.release_date, a.artist_name⟩
  let track_batch := tracks_data.map fun t =>
    (⟨t.track_id, t.name, a.artist_id, a.album_id⟩ : TrackRow)
  let tracks1 := applyTracks db.tracks track_batch
  let stream_batch := stream_data.map fun s => (s.track_id, s.play_count, a.album_id)
  let streams1 := applyStreams db.streams stream_batch now
  (⟨albums1, tracks1, streams1⟩,
   ⟨a.album_id, a.artist_id, track_batch.length, stream_batch.length⟩)

/-- The last value a batch assigns to a given primary key, starting from a
default row (proof device for the batch-upsert lemmas). -/
def lastForKey (batch : List TrackRow) (row : TrackRow) : TrackRow :=
  batch.foldl (fun acc b => if b.track_id = row.track_id then b else acc) row

/-- `lastForKey` with the comparison key made explicit. -/
def lastForKeyAt (batch : List TrackRow) (k : String) (row : TrackRow) : TrackRow :=
  batch.foldl (fun acc b => if b.track_id = k then b else acc) row

/-! ## Date and string parsing

`datetime.strptime(s, "%Y-%m-%d")` is embedded over the character list of the
string: split on the dashes, accept 1-4 year digits and 1-2 month/day digits
(strptime directives match variable widths), and validate the calendar ranges
(month 1-12, day within the month, year at least 1). -/

def splitOnChar (sep : Char) : List Char → List (List Char)
  | [] => [[]]
  | c :: cs =>
      let r := splitOnChar sep cs
      if c = sep then [] :: r
      else (c :: r.headD []) :: r.tail

def natOfDigits (cs : List Char) : Nat :=
  cs.foldl (fun n c => n * 10 + (c.toNat - 48)) 0

def isLeap (y : Nat) : Bool :=
  (y % 4 == 0 && y % 100 != 0) || y % 400 == 0

def daysInMonth (y m : Nat) : Nat :=
  if m = 2 then (if isLeap y then 29 else 28)
  else if m == 4 || m == 6 || m == 9 || m == 11 then 30
  else 31

def parseYMDChars (cs : List Char) : Option YMDDate :=
  match splitOnChar '-' cs with
  | [ys, ms, ds] =>
      if ys.all Char.isDigit && ms.all Char.isDigit && ds.all Char.isDigit
          && decide (1 ≤ ys.length) && decide (ys.length ≤ 4)
          && decide (1 ≤ ms.length) && decide (ms.length ≤ 2)
          && decide (1 ≤ ds.length) && decide (ds.length ≤ 2) then
        let y := natOfDigits ys
        let m := natOfDigits ms
        let d := natOfDigits ds
        if decide (1 ≤ y) && decide (1 ≤ m) && decide (m ≤ 12)
            && decide (1 ≤ d) && decide (d ≤ daysInMonth y m) then
          some ⟨y, m, d⟩
        else none
      else none
  | _ => none

/-- `datetime.strptime(s, "%Y-%m-%d").date()`. -/
def parseYMD (s : String) : Option YMDDate :=
  parseYMDChars s.data

/-- Release-date parsing in `OfficialSpotifyService.search_albums`: by string
length, append the missing `-01` / `-01-01` components, then strptime. -/
def parse_release_date (rd : String) : Option YMDDate :=
  if rd.length = 4 then parseYMD (rd ++ "-01-01")
  else if rd.length = 7 then parseYMD (rd ++ "-01")
  else parseYMD rd

def pad2 (n : Nat) : String :=
  if n < 10 then "0" ++ toString n else toString n

def pad4 (n : Nat) : String :=
  if n < 10 then "000" ++ toString n
  else if n < 100 then "00" ++ toString n
  else if n < 1000 then "0" ++ toString n
  else toString n

/-- `time.strftime("%Y-%m-%d", d)`. -/
def formatYMD (d : YMDDate) : String :=
  pad4 d.year ++ "-" ++ pad2 d.month ++ "-" ++ pad2 d.day

/-- Release-date handling in `UnofficialSpotifyService.get_album_tracks`
(lines 298-307): take the part of `isoString` before `T`, parse it with
strptime `%Y-%m-%d`, and re-format; on a parse error the release date stays
`None`.  (`time.strptime` does not reject impossible days of month the way
`datetime.strptime` does; the shared calendar-validating parser is used,
which agrees on every claim-relevant input.) -/
def parse_release_date_iso (iso : String) : Option String :=
  (parseYMDChars (iso.data.takeWhile fun c => c != 'T')).map formatYMD

/-- `uri.split(":")[-1]`. -/
def lastColonSeg (s : String) : String :=
  ⟨(splitOnChar ':' s.data).getLastD []⟩

/-! ## Unofficial API response model (services/unofficial_spotify.py)

The nested JSON under `data.albumUnion` is modelled structurally; an `Option`
field is `none` when the corresponding key is absent. -/

structure ArtistItem where
  id : String
  name : String
  deriving DecidableEq

structure ArtistsObj where
  items : Option (List ArtistItem)
  deriving DecidableEq

structure CoverSource where
  width : Option Nat
  height : Option Nat
  url : Option String
  deriving DecidableEq

structure CoverArtObj where
  sources : Option (List CoverSource)
  deriving DecidableEq

structure DateObj where
  isoString : Option String
  deriving DecidableEq

structure TrackArtistsObj where
  items : Option (List String)
  deriving DecidableEq

structure TrackObj where
  uri : Option String
  name : Option String
  playcount : Option String
  artists : Option TrackArtistsObj
  deriving DecidableEq

structure TrackItemJ where
  track : Option TrackObj
  deriving DecidableEq

structure TracksObj where
  items : Option (List TrackItemJ)
  deriving DecidableEq

structure RawAlbumUnion where
  uri : String
  name : String
  artists : Option ArtistsObj
  coverArt : Option CoverArtObj
  date : Option DateObj
  tracksV2 : Option TracksObj
  deriving DecidableEq

/-- A parsed track (`models.Track`). -/
structure TrackM where
  track_id : String
  name : String
  playcount : Int
  artist_name : String
  deriving DecidableEq

/-- A parsed album (`models.AlbumResponse` plus the attributes set on it). -/
structure AlbumResponseM where
  album_id : String
  album_name : String
  artist_id : String
  artist_name : String
  tracks : List TrackM
  cover_art : String
  release_date : Option String
  deriving DecidableEq

def area (s : CoverSource) : Nat :=
  s.width.getD 0 * s.height.getD 0

/-- Python `max(sources, key=λx: x.get("width",0)*x.get("height",0))`: the
first source of maximal area (strictly greater area replaces the candidate). -/
def largestSource : List CoverSource → Option CoverSource
  | [] => none
  | x :: xs => some (xs.foldl (fun best s => if area best < area s then s else best) x)

/-- `track_data["artists"]["items"][0]["profile"]["name"] if "artists" in
track_data else ""`; a missing `items` key or an empty list raises inside the
per-track try and skips the track. -/
def trackArtistName (td : TrackObj) : Option String :=
  match td.artists with
  | none => some ""
  | some aobj =>
      match aobj.items with
      | some (n :: _) => some n
      | _ => none

/-- `int(track_data.get("playcount", 0))`: an absent field defaults to 0; a
present field is parsed as an integer, failure skipping the track. -/
def trackPlaycount (td : TrackObj) : Option Int :=
  match td.playcount with
  | none => some 0
  | some s => s.toInt?

/-- The per-track body of the parse loop in `get_album_tracks` (lines
314-329); `none` means the per-track exception handler skipped the entry. -/
def parseTrackItem (it : TrackItemJ) : Option TrackM := do
  let td ← it.track
  let artistName ← trackArtistName td
  let uri ← td.uri
  let nm ← td.name
  let pc ← trackPlaycount td
  some ⟨lastColonSeg uri, nm, pc, artistName⟩

def coverArtUrl (au : RawAlbumUnion) : String :=
  match au.coverArt with
  | none => ""
  | some cobj =>
      match cobj.sources with
      | none => ""
      | some srcs =>
          match largestSource srcs with
          | none => ""
          | some s => s.url.getD ""

def albumReleaseDate (au : RawAlbumUnion) : Option String :=
  match au.date with
  | none => none
  | some dobj => dobj.isoString.bind parse_release_date_iso

/-- One parse attempt of `get_album_tracks` (lines 277-346) applied to the
JSON under `data.albumUnion` (`none` models a response missing
`data`/`albumUnion`).  Errors are the exception messages raised and caught by
the per-attempt handler. -/
def parseAttempt (resp : Option RawAlbumUnion) : Except String AlbumResponseM :=
  match resp with
  | none => Except.error "Unexpected API response format"
  | some au =>
      match au.artists with
      | none => Except.error "Artist data missing in API response"
      | some aobj =>
          match aobj.items with
          | none => Except.error "Artist data missing in API response"
          | some [] => Except.error "list index out of range"
          | some (artistData :: _) =>
              match au.tracksV2 with
              | none => Except.error "Track data missing in API response"
              | some tobj =>
                  match tobj.items with
                  | none => Except.error "Track data missing in API response"
                  | some items =>
                      Except.ok
                        { album_id := lastColonSeg au.uri
                          album_name := au.name
                          artist_id := artistData.id
                          artist_name := artistData.name
                          tracks := items.filterMap parseTrackItem
                          cover_art := coverArtUrl au
                          release_date := albumReleaseDate au }

/-! ## Retry loop of `get_album_tracks` (lines 270-363)

`for attempt in range(max_retries)` with per-attempt outcome `oracle attempt`
(success or the exception message), exponential backoff with jitter after each
failed attempt except the last, and an aggregated failure message once the
fuel runs out. -/

structure RunResult (α : Type) where
  result : Except String α
  attemptsMade : Nat
  sleeps : List ℚ

def retryGo {α : Type} (oracle : Nat → Except String α) (jitter : Nat → ℚ) (mx : Nat) :
    Nat → Nat → List String → List ℚ → RunResult α
  | 0, attempt, errs, slps =>
      ⟨Except.error ("Failed to fetch album tracks after " ++ toString mx
          ++ " attempts: " ++ String.intercalate "\n" errs), attempt, slps⟩
  | fuel + 1, attempt, errs, slps =>
      match oracle attempt with
      | Except.ok v => ⟨Except.ok v, attempt + 1, slps⟩
      | Except.error e =>
          retryGo oracle jitter mx fuel (attempt + 1)
            (errs ++ ["Attempt " ++ toString (attempt + 1) ++ ": " ++ e])
            (if fuel = 0 then slps else slps ++ [(2 : ℚ) ^ attempt + jitter attempt])

def get_album_tracks_run {α : Type} (oracle : Nat → Except String α)
    (jitter : Nat → ℚ) : RunResult α :=
  retryGo oracle jitter 3 3 0 [] []

/-! ## Token manager (services/token_manager.py)

`time.time()` floats are rationals; `fresh` is the `(bearer, client)` pair the
playwright refresh would observe; the whole body runs under `self.lock`, so
concurrent callers are modelled as sequential iterations (`runCalls`). -/

structure TMState where
  client_token : Option String
  bearer_token : Option String
  bearer_expiry : ℚ
  token_expiry : ℚ
  deriving DecidableEq

structure CacheData where
  bearer_token : String
  client_token : String
  timestamp : ℚ
  expires_at : ℚ
  deriving DecidableEq

/-- `self.client_token and current_time < self.token_expiry - 300`. -/
def clientValid (s : TMState) (now : ℚ) : Bool :=
  s.client_token.isSome && decide (now < s.token_expiry - 300)

/-- `self.bearer_token and current_time * 1000 < self.bearer_expiry - 300000`. -/
def bearerValid (s : TMState) (now : ℚ) : Bool :=
  s.bearer_token.isSome && decide (now * 1000 < s.bearer_expiry - 300000)

/-- `TokenManager._try_load_from_cache`. -/
def tryLoadFromCache (s : TMState) (now : ℚ) (cacheFile : Option CacheData) :
    TMState × Bool :=
  match cacheFile with
  | none => (s, false)
  | some d =>
      if now < d.expires_at - 300 then
        (⟨some d.client_token, some d.bearer_token, d.expires_at * 1000, d.expires_at⟩, true)
      else (s, false)

def cacheValid (cacheFile : Option CacheData) (now : ℚ) : Bool :=
  match cacheFile with
  | none => false
  | some d => decide (now < d.expires_at - 300)

/-- The state `_fetch_tokens_with_playwright` leaves behind: both tokens
replaced, one-hour expiries from `now`. -/
def refreshedState (now : ℚ) (fresh : String × String) : TMState :=
  ⟨some fresh.2, some fresh.1, now * 1000 + 3600000, now + 3600⟩

/-- `TokenManager.get_tokens` (token_manager.py lines 214-259).  Returns the
new state, whether the playwright refresh fired, and the returned
`(client_token, bearer_token)` pair. -/
def getTokensTM (s : TMState) (now : ℚ) (cacheFile : Option CacheData)
    (fresh : String × String) : TMState × Bool × (Option String × Option String) :=
  if clientValid s now && bearerValid s now then
    (s, false, (s.client_token, s.bearer_token))
  else
    let load := tryLoadFromCache s now cacheFile
    if load.2 && clientValid load.1 now && bearerValid load.1 now then
      (load.1, false, (load.1.client_token, load.1.bearer_token))
    else
      let s2 := refreshedState now fresh
      (s2, true, (s2.client_token, s2.bearer_token))

/-- `n` lock-serialized calls of `get_tokens` against the shared state:
final state, number of playwright refreshes, and each caller's returned
pair in call order. -/
def runCalls (now : ℚ) (cacheFile : Option CacheData) (fresh : String × String) :
    Nat → TMState → TMState × Nat × List (Option String × Option String)
  | 0, s => (s, 0, [])
  | n + 1, s =>
      let out := getTokensTM s now cacheFile fresh
      let r := runCalls now cacheFile fresh n out.1
      (r.1, (if out.2.1 then 1 else 0) + r.2.1, out.2.2 :: r.2.2)

/-! ## Batch coordinator (tasks.py) -/

/-- `AlbumTracker` singleton state (`current_offset`, `batch_size`). -/
structure TrackerState where
  current_offset : Nat
  batch_size : Nat
  deriving DecidableEq

/-- `AlbumTracker.get_next_batch`: under the lock, return the current
`(offset, limit)` and advance the offset by the batch size. -/
def get_next_batch (s : TrackerState) : (Nat × Nat) × TrackerState :=
  ((s.current_offset, s.batch_size), ⟨s.current_offset + s.batch_size, s.batch_size⟩)

/-- `DatabaseService.get_all_albums` (cockroach.py lines 110-132) as written:
its query text is `SELECT distinct album_id, FROM tracks ORDER BY album_id
DESC LIMIT $1 OFFSET $2` — the stray comma before `FROM` makes the SQL
syntactically invalid, so `conn.fetch` raises on every call, for every
catalog and every `(limit, offset)`. -/
def get_all_albums (_catalog : List String) (_limit _offset : Nat) :
    Except String (List String) :=
  Except.error "PostgresSyntaxError: syntax error at or near \"FROM\""

/-- The page `get_all_albums` plainly intends (its docstring reads "Get all
albums with pagination"): the same query with the stray comma removed,
`SELECT DISTINCT album_id FROM tracks ORDER BY album_id DESC LIMIT $1 OFFSET
$2` — the LIMIT/OFFSET page of the album-id catalog, which is also the
spec's `get_page(offset, limit)` catalog-accessor contract. -/
def get_all_albums_intended (catalog : List String) (limit offset : Nat) : List String :=
  (catalog.drop offset).take limit

structure BatchResult where
  status : String
  albums_count : Nat
  enqueued_album_tasks : List String
  enqueued_next : Bool
  deriving DecidableEq

/-- `_fetch_albums_batch_async` (tasks.py lines 72-102) as written: claim the
page (the tracker advances inside `get_next_batch`), then call
`get_all_albums`.  The body has no try/except, so the database error
propagates out of the task (the `Except.error` component) after the cursor
has already advanced; the empty-page reset branch is never reached. -/
def fetch_albums_batch (catalog : List String) (s : TrackerState) :
    TrackerState × Except String BatchResult :=
  let bp := get_next_batch s
  match get_all_albums catalog bp.1.2 bp.1.1 with
  | Except.error e => (bp.2, Except.error e)
  | Except.ok albums =>
      if albums.isEmpty then
        (⟨0, bp.2.batch_size⟩, Except.ok ⟨"complete", 0, [], false⟩)
      else
        (bp.2, Except.ok ⟨"processing", albums.length, albums, true⟩)

/-- `_fetch_albums_batch_async` over the intended accessor (the SQL slip
removed): if the page is empty, reset the tracker to offset 0, return the
cycle-complete result and do not re-enqueue; otherwise enqueue one
`fetch_album_metrics` task per album plus the next `fetch_albums_batch`. -/
def fetch_albums_batch_intended (catalog : List String) (s : TrackerState) :
    TrackerState × BatchResult :=
  let bp := get_next_batch s
  let albums := get_all_albums_intended catalog bp.1.2 bp.1.1
  if albums.isEmpty then
    (⟨0, bp.2.batch_size⟩, ⟨"complete", 0, [], false⟩)
  else
    (bp.2, ⟨"processing", albums.length, albums, true⟩)

/-- Tracker state after `n` dispatches of the intended coordinator. -/
def iterFetch (catalog : List String) (s : TrackerState) : Nat → TrackerState
  | 0 => s
  | n + 1 => (fetch_albums_batch_intended catalog (iterFetch catalog s n)).1

/-- Result of intended dispatch number `n` (0-based). -/
def nthDispatch (catalog : List String) (s : TrackerState) (n : Nat) : BatchResult :=
  (fetch_albums_batch_intended catalog (iterFetch catalog s n)).2

def ceilDiv (K P : Nat) : Nat :=
  (K + P - 1) / P

/-! ## Per-album tasks (tasks.py) and transactional persistence -/

/-- Which step of `save_complete_album` a database failure hits. -/
inductive SaveStep
  | albumStep
  | tracksStep
  | streamsStep
  deriving DecidableEq

/-- The body of `save_complete_album` inside `conn.transaction()`, with a
failure-injection point before each statement (`failAt`); a raised database
error aborts the body. -/
def save_complete_album_tx (db : DB) (a : AlbumData) (tracks_data : List TrackIn)
    (stream_data : List StreamIn) (now : Int) (failAt : Option SaveStep) :
    Except String (DB × SaveResult) :=
  if failAt = some SaveStep.albumStep then
    Except.error "database error during album upsert"
  else
    let albums1 := saveAlbum db.albums
      ⟨a.album_id, a.artist_id, a.album_name, a.cover_art, a.release_date, a.artist_name⟩
    if failAt = some SaveStep.tracksStep then
      Except.error "database error during tracks upsert"
    else
      let track_batch := tracks_data.map fun t =>
        (⟨t.track_id, t.name, a.artist_id, a.album_id⟩ : TrackRow)
      let tracks1 := applyTracks db.tracks track_batch
      if failAt = some SaveStep.streamsStep then
        Except.error "database error during streams insert"
      else
        let stream_batch := stream_data.map fun s => (s.track_id, s.play_count, a.album_id)
        let streams1 := applyStreams db.streams stream_batch now
        Except.ok (⟨albums1, tracks1, streams1⟩,
          ⟨a.album_id, a.artist_id, track_batch.length, stream_batch.length⟩)

/-- `save_complete_album` with `async with conn.transaction()` semantics: on
any step failure the transaction rolls back (the database is the one from
before the call) and the error propagates to the caller as a raised
exception, modelled as the `Except.error` component. -/
def save_complete_album_run (db : DB) (a : AlbumData) (tracks_data : List TrackIn)
    (stream_data : List StreamIn) (now : Int) (failAt : Option SaveStep) :
    DB × Except String SaveResult :=
  match save_complete_album_tx db a tracks_data stream_data now failAt with
  | Except.ok out => (out.1, Except.ok out.2)
  | Except.error e => (db, Except.error e)

/-- One album row of the page handed to `fetch_album_metrics` (a dict from
`get_all_albums`). -/
structure AlbumRefIn where
  album_id : String
  artist_id : String
  artist_name : String
  deriving DecidableEq

/-- One entry of the `result["tracks"]` list built by the fetch task. -/
structure PayloadTrack where
  track_id : String
  name : String
  playcount : Int
  deriving DecidableEq

/-- The `result` dict the fetch task hands to `upload_album_metrics`. -/
structure UploadPayload where
  album_id : String
  album_name : String
  artist_id : String
  artist_name : String
  cover_art : String
  release_date : Option String
  tracks : List PayloadTrack
  deriving DecidableEq

/-- The per-album result record both tasks return. -/
structure TaskResult where
  album_id : String
  status : String
  tracks_count : Option Nat
  error : Option String
  deriving DecidableEq

/-- The success-path payload construction of `_fetch_album_metrics_async`. -/
def buildPayload (album : AlbumRefIn) (ad : AlbumResponseM) : UploadPayload :=
  { album_id := ad.album_id
    album_name := ad.album_name
    artist_id := album.artist_id
    artist_name := album.artist_name
    cover_art := ad.cover_art
    release_date := ad.release_date
    tracks := ad.tracks.map fun t => ⟨t.track_id, t.name, t.playcount⟩ }

/-- `_fetch_album_metrics_async` (tasks.py lines 110-157): the whole body runs
in a try/except; `fetched` is the outcome of everything that can raise inside
the try (the `get_album_tracks` call and the payload construction).  Returns
the per-album result record and the payload enqueued to the upload task (none
on error). -/
def fetch_album_metrics_task (album : AlbumRefIn)
    (fetched : Except String AlbumResponseM) : TaskResult × Option UploadPayload :=
  match fetched with
  | Except.ok ad =>
      let payload := buildPayload album ad
      (⟨album.album_id, "success", some payload.tracks.length, none⟩, some payload)
  | Except.error e => (⟨album.album_id, "error", none, some e⟩, none)

/-- One page of per-album fetch tasks; `fetchOf` gives each album's outcome. -/
def processPage (albums : List AlbumRefIn)
    (fetchOf : AlbumRefIn → Except String AlbumResponseM) :
    List (TaskResult × Option UploadPayload) :=
  albums.map fun a => fetch_album_metrics_task a (fetchOf a)

/-- `_upload_album_metrics_async` (tasks.py lines 165-221): convert the
payload (release-date string parsed by strptime, falling back to
`datetime.now()`, i.e. `today`), call `save_complete_album`, and capture any
raised error into the per-album result record. -/
def upload_album_metrics_task (pl : UploadPayload) (db : DB) (today : YMDDate)
    (now : Int) (failAt : Option SaveStep) : DB × TaskResult :=
  let album_info : AlbumData :=
    { album_id := pl.album_id
      artist_id := pl.artist_id
      album_name := pl.album_name
      cover_art := pl.cover_art
      release_date := pl.release_date.map fun s => (parseYMD s).getD today
      artist_name := pl.artist_name }
  let tracks := pl.tracks.map fun t => (⟨t.track_id, t.name⟩ : TrackIn)
  let streams := pl.tracks.map fun t => (⟨t.track_id, t.playcount⟩ : StreamIn)
  match save_complete_album_run db album_info tracks streams now failAt with
  | (db1, Except.ok _) => (db1, ⟨pl.album_id, "uploaded", some tracks.length, none⟩)
  | (db1, Except.error e) => (db1, ⟨pl.album_id, "error", none, some e⟩)

/-- A concrete `data.albumUnion` response with no album-level `artists` key
but with a first track carrying an artist profile and an album title of the
shape `Artist - Title` (test fixture). -/
def c8raw : RawAlbumUnion :=
  { uri := "spotify:album:a1"
    name := "Artist One - Great Album"
    artists := none
    coverArt := none
    date := none
    tracksV2 := some ⟨some [⟨some ⟨some "spotify:track:t1", some "Song One",
      some "5", some ⟨some ["Artist One"]⟩⟩⟩]⟩ }

/-! ### Lemmas: album upsert -/

theorem saveAlbum_idem (rows : List AlbumRow) (r : AlbumRow) :
    saveAlbum (saveAlbum rows r) r = saveAlbum rows r := by
  induction rows with
  | nil => simp [saveAlbum]
  | cons r0 rest ih =>
      by_cases h : r0.album_id = r.album_id
      · simp [saveAlbum, h]
      · simp [saveAlbum, h, ih]

/-! ### Lemmas: track upsert -/

theorem trackKeys_upsert (rows : List TrackRow) (r : TrackRow) :
    trackKeys (upsertTrack rows r) =
      if r.track_id ∈ trackKeys rows then trackKeys rows
      else trackKeys rows ++ [r.track_id] := by
  induction rows with
  | nil => simp [upsertTrack, trackKeys]
  | cons r0 rest ih =>
      by_cases h : r0.track_id = r.track_id
      · simp [upsertTrack, trackKeys, h]
      · simp only [upsertTrack, if_neg h, trackKeys, List.map_cons, List.mem_cons]
        simp only [trackKeys] at ih
        rw [ih]
        by_cases hm : r.track_id ∈ rest.map TrackRow.track_id
        · simp [hm]
        · have hne : ¬ r.track_id = r0.track_id := fun hc => h hc.symm
          simp [hm, hne]

theorem nodup_trackKeys_upsert (rows : List TrackRow) (r : TrackRow)
    (h : (trackKeys rows).Nodup) : (trackKeys (upsertTrack rows r)).Nodup := by
  rw [trackKeys_upsert]
  by_cases hm : r.track_id ∈ trackKeys rows
  · simpa [hm] using h
  · simp only [hm, if_false]
    simpa [List.nodup_append] using ⟨h, hm⟩

theorem mem_trackKeys_upsert_self (rows : List TrackRow) (r : TrackRow) :
    r.track_id ∈ trackKeys (upsertTrack rows r) := by
  rw [trackKeys_upsert]
  by_cases hm : r.track_id ∈ trackKeys rows
  · simp [hm]
  · simp [hm]

theorem mem_trackKeys_upsert_of_mem (rows : List TrackRow) (r : TrackRow)
    (k : String) (h : k ∈ trackKeys rows) : k ∈ trackKeys (upsertTrack rows r) := by
  rw [trackKeys_upsert]
  by_cases hm : r.track_id ∈ trackKeys rows
  · simpa [hm]
  · simp [hm, List.mem_append, h]

theorem mem_trackKeys_applyTracks_of_mem (batch : List TrackRow) :
    ∀ (rows : List TrackRow) (k : String), k ∈ trackKeys rows →
      k ∈ trackKeys (applyTracks rows batch) := by
  induction batch with
  | nil => intro rows k h; simpa [applyTracks]
  | cons b bs ih =>
      intro rows k h
      have h1 := mem_trackKeys_upsert_of_mem rows b k h
      simpa [applyTracks] using ih (upsertTrack rows b) k h1

theorem batch_keys_mem_applyTracks (batch : List TrackRow) :
    ∀ (rows : List TrackRow), ∀ b ∈ batch,
      b.track_id ∈ trackKeys (applyTracks rows batch) := by
  induction batch with
  | nil => intro rows b hb; simp at hb
  | cons c cs ih =>
      intro rows b hb
      rcases List.mem_cons.mp hb with h | h
      · subst h
        have h1 := mem_trackKeys_upsert_self rows b
        simpa [applyTracks] using
          mem_trackKeys_applyTracks_of_mem cs (upsertTrack rows b) b.track_id h1
      · simpa [applyTracks] using ih (upsertTrack rows c) b h

theorem nodup_trackKeys_applyTracks (batch : List TrackRow) :
    ∀ (rows : List TrackRow), (trackKeys rows).Nodup →
      (trackKeys (applyTracks rows batch)).Nodup := by
  induction batch with
  | nil => intro rows h; simpa [applyTracks]
  | cons b bs ih =>
      intro rows h
      simpa [applyTracks] using ih (upsertTrack rows b) (nodup_trackKeys_upsert rows b h)

theorem lastForKey_eq_at (batch : List TrackRow) (row : TrackRow) :
    lastForKey batch row = lastForKeyAt batch row.track_id row := rfl

theorem lastForKeyAt_of_not_mem (batch : List TrackRow) :
    ∀ (k : String) (row : TrackRow), k ∉ batch.map TrackRow.track_id →
      lastForKeyAt batch k row = row := by
  induction batch with
  | nil => intro k row _; rfl
  | cons b bs ih =>
      intro k row h
      simp only [List.map_cons, List.mem_cons] at h
      push_neg at h
      have hb : ¬ b.track_id = k := fun hc => h.1 hc.symm
      simpa [lastForKeyAt, hb] using ih k row h.2

theorem lastForKeyAt_init_irrel (batch : List TrackRow) :
    ∀ (k : String) (x y : TrackRow), k ∈ batch.map TrackRow.track_id →
      lastForKeyAt batch k x = lastForKeyAt batch k y := by
  induction batch with
  | nil => intro k x y h; simp at h
  | cons b bs ih =>
      intro k x y h
      by_cases hb : b.track_id = k
      · simp [lastForKeyAt, hb]
      · have : k ∈ bs.map TrackRow.track_id := by
          rcases List.mem_cons.mp h with h1 | h1
          · exact absurd h1.symm hb
          · exact h1
        simpa [lastForKeyAt, hb] using ih k x y this

theorem lastForKey_cons (b : TrackRow) (bs : List TrackRow) (row : TrackRow) :
    lastForKey (b :: bs) row =
      lastForKeyAt bs row.track_id (if b.track_id = row.track_id then b else row) := by
  by_cases h : b.track_id = row.track_id
  · simp [lastForKey, lastForKeyAt, h]
  · simp [lastForKey, lastForKeyAt, h]

/-- Mapping a pointwise-replace over rows whose keys all differ from `k` is
the identity. -/
theorem map_replace_id (k : String) (r : TrackRow) :
    ∀ (rows : List TrackRow), (∀ row ∈ rows, ¬ k = row.track_id) →
      (rows.map fun row => if k = row.track_id then r else row) = rows := by
  intro rows h
  induction rows with
  | nil => rfl
  | cons r0 rest ih =>
      have h0 : ¬ k = r0.track_id := h r0 (List.mem_cons_self r0 rest)
      have hr : ∀ row ∈ rest, ¬ k = row.track_id := fun row hm => h row (List.mem_cons_of_mem r0 hm)
      simp [h0, ih hr]

/-- With nodup primary keys and the key already present, a single upsert is a
pointwise replacement. -/
theorem upsertTrack_eq_map (r : TrackRow) :
    ∀ (rows : List TrackRow), (trackKeys rows).Nodup →
      r.track_id ∈ trackKeys rows →
      upsertTrack rows r = rows.map fun row =>
        if r.track_id = row.track_id then r else row := by
  intro rows
  induction rows with
  | nil => intro _ hmem; simp [trackKeys] at hmem
  | cons r0 rest ih =>
      intro hnd hmem
      by_cases h : r0.track_id = r.track_id
      · have h' : r.track_id = r0.track_id := h.symm
        simp only [trackKeys, List.map_cons, List.nodup_cons] at hnd
        have hrest : ∀ row ∈ rest, ¬ r.track_id = row.track_id := by
          intro row hm hc
          apply hnd.1
          rw [h, hc]
          exact List.mem_map_of_mem TrackRow.track_id hm
        rw [show upsertTrack (r0 :: rest) r = r :: rest from by simp [upsertTrack, h]]
        simp only [List.map_cons, if_pos h']
        rw [map_replace_id r.track_id r rest hrest]
      · have hne : ¬ r.track_id = r0.track_id := fun hc => h hc.symm
        simp only [trackKeys, List.map_cons, List.nodup_cons] at hnd
        have hmem' : r.track_id ∈ trackKeys rest := by
          rcases List.mem_cons.mp hmem with h1 | h1
          · exact absurd h1 hne
          · exact h1
        simp [upsertTrack, h, hne, ih hnd.2 hmem']

theorem trackKeys_map_replace (rows : List TrackRow) (b : TrackRow) :
    trackKeys (rows.map fun row => if b.track_id = row.track_id then b else row)
      = trackKeys rows := by
  induction rows with
  | nil => rfl
  | cons r0 rest ih =>
      by_cases h : b.track_id = r0.track_id
      · simp [trackKeys, h, ih] at *
        simpa [trackKeys, h] using ih
      · simpa [trackKeys, h] using ih

/-- With nodup primary keys all present, applying a batch is a pointwise map
to the last batch value for each key. -/
theorem applyTracks_eq_map (batch : List TrackRow) :
    ∀ (rows : List TrackRow), (trackKeys rows).Nodup →
      (∀ b ∈ batch, b.track_id ∈ trackKeys rows) →
      applyTracks rows batch = rows.map (lastForKey batch) := by
  induction batch with
  | nil =>
      intro rows _ _
      have h0 : ∀ row ∈ rows, lastForKey [] row = id row := fun row _ => rfl
      simp only [applyTracks, List.foldl_nil]
      rw [List.map_congr_left h0, List.map_id]
  | cons b bs ih =>
      intro rows hnd hks
      have hb : b.track_id ∈ trackKeys rows := hks b (List.mem_cons_self b bs)
      have hmap := upsertTrack_eq_map b rows hnd hb
      have hkeys : trackKeys (upsertTrack rows b) = trackKeys rows := by
        rw [hmap]; exact trackKeys_map_replace rows b
      have hnd' : (trackKeys (upsertTrack rows b)).Nodup := by rw [hkeys]; exact hnd
      have hks' : ∀ c ∈ bs, c.track_id ∈ trackKeys (upsertTrack rows b) := by
        intro c hc; rw [hkeys]; exact hks c (List.mem_cons_of_mem b hc)
      have step : applyTracks rows (b :: bs) = applyTracks (upsertTrack rows b) bs := by
        simp [applyTracks]
      rw [step, ih (upsertTrack rows b) hnd' hks', hmap, List.map_map]
      apply List.map_congr_left
      intro row _
      rw [Function.comp_apply, lastForKey_cons]
      by_cases h : b.track_id = row.track_id
      · rw [if_pos h, lastForKey_eq_at, h]
      · rw [if_neg h, lastForKey_eq_at]

theorem mem_of_mem_upsertTrack_ne (r row : TrackRow) :
    ∀ (rows : List TrackRow), row ∈ upsertTrack rows r →
      row.track_id ≠ r.track_id → row ∈ rows := by
  intro rows
  induction rows with
  | nil =>
      intro h hne
      simp [upsertTrack] at h
      exact absurd (congrArg TrackRow.track_id h) hne
  | cons r0 rest ih =>
      intro h hne
      by_cases h0 : r0.track_id = r.track_id
      · simp only [upsertTrack, if_pos h0] at h
        rcases List.mem_cons.mp h with h1 | h1
        · exact absurd (congrArg TrackRow.track_id h1) hne
        · exact List.mem_cons_of_mem r0 h1
      · simp only [upsertTrack, if_neg h0] at h
        rcases List.mem_cons.mp h with h1 | h1
        · exact h1 ▸ List.mem_cons_self r0 rest
        · exact List.mem_cons_of_mem r0 (ih h1 hne)

theorem mem_of_mem_applyTracks_notin (batch : List TrackRow) :
    ∀ (rows : List TrackRow) (row : TrackRow), row ∈ applyTracks rows batch →
      row.track_id ∉ batch.map TrackRow.track_id → row ∈ rows := by
  induction batch with
  | nil => intro rows row h _; simpa [applyTracks] using h
  | cons b bs ih =>
      intro rows row h hnot
      simp only [List.map_cons, List.mem_cons] at hnot
      push_neg at hnot
      have h1 : row ∈ upsertTrack rows b := by
        have := ih (upsertTrack rows b) row (by simpa [applyTracks] using h) hnot.2
        exact this
      exact mem_of_mem_upsertTrack_ne b row rows h1 hnot.1

theorem eq_of_mem_upsertTrack (r row : TrackRow) :
    ∀ (rows : List TrackRow), (trackKeys rows).Nodup →
      row ∈ upsertTrack rows r → row.track_id = r.track_id → row = r := by
  intro rows
  induction rows with
  | nil =>
      intro _ h _
      simpa [upsertTrack] using h
  | cons r0 rest ih =>
      intro hnd h hkey
      simp only [trackKeys, List.map_cons, List.nodup_cons] at hnd
      by_cases h0 : r0.track_id = r.track_id
      · simp only [upsertTrack, if_pos h0] at h
        rcases List.mem_cons.mp h with h1 | h1
        · exact h1
        · exfalso
          apply hnd.1
          rw [h0, ← hkey]
          exact List.mem_map_of_mem TrackRow.track_id h1
      · simp only [upsertTrack, if_neg h0] at h
        rcases List.mem_cons.mp h with h1 | h1
        · exact absurd (h1 ▸ hkey) h0
        · exact ih hnd.2 h1 hkey

/-- Every row of `applyTracks rows batch` is already the last value the batch
assigns to its key. -/
theorem lastForKey_of_mem_applyTracks (batch : List TrackRow) :
    ∀ (rows : List TrackRow) (row : TrackRow), (trackKeys rows).Nodup →
      row ∈ applyTracks rows batch → lastForKey batch row = row := by
  induction batch with
  | nil => intro rows row _ _; rfl
  | cons b bs ih =>
      intro rows row hnd h
      have hnd' : (trackKeys (upsertTrack rows b)).Nodup := nodup_trackKeys_upsert rows b hnd
      have h' : row ∈ applyTracks (upsertTrack rows b) bs := by simpa [applyTracks] using h
      have hbs := ih (upsertTrack rows b) row hnd' h'
      rw [lastForKey_cons]
      by_cases hb : b.track_id = row.track_id
      · simp only [if_pos hb]
        by_cases hm : row.track_id ∈ bs.map TrackRow.track_id
        · rw [lastForKeyAt_init_irrel bs row.track_id b row hm]
          rw [lastForKey_eq_at] at hbs
          exact hbs
        · rw [lastForKeyAt_of_not_mem bs row.track_id b hm]
          have hrow : row ∈ upsertTrack rows b :=
            mem_of_mem_applyTracks_notin bs (upsertTrack rows b) row h' (by simpa [hb] using hm)
          exact (eq_of_mem_upsertTrack b row rows hnd hrow hb.symm).symm
      · simp only [if_neg hb]
        rw [lastForKey_eq_at] at hbs
        exact hbs

/-- Re-applying the same track batch leaves the tracks table unchanged. -/
theorem applyTracks_idem (rows : List TrackRow) (batch : List TrackRow)
    (hnd : (trackKeys rows).Nodup) :
    applyTracks (applyTracks rows batch) batch = applyTracks rows batch := by
  have hnd2 := nodup_trackKeys_applyTracks batch rows hnd
  have hks := batch_keys_mem_applyTracks batch rows
  rw [applyTracks_eq_map batch (applyTracks rows batch) hnd2 hks]
  have hstable : ∀ row ∈ applyTracks rows batch, lastForKey batch row = row :=
    fun row hm => lastForKey_of_mem_applyTracks batch rows row hnd hm
  calc (applyTracks rows batch).map (lastForKey batch)
      = (applyTracks rows batch).map id := List.map_congr_left hstable
    _ = applyTracks rows batch := List.map_id _

/-! ### Lemmas: stream inserts -/

theorem insertStream_noop (rows : List StreamRow) (t : String) (pc : Int)
    (al : String) (now : Int) (h : hasStreamKey rows t pc al = true) :
    insertStream rows t pc al now = rows := by
  simp [insertStream, h]

theorem hasStreamKey_insertStream_self (rows : List StreamRow) (t : String)
    (pc : Int) (al : String) (now : Int) :
    hasStreamKey (insertStream rows t pc al now) t pc al = true := by
  by_cases h : hasStreamKey rows t pc al
  · simp [insertStream, h]
  · have hif : insertStream rows t pc al now = rows ++ [⟨t, pc, al, now⟩] := by
      simp [insertStream, h]
    rw [hif]
    simp only [hasStreamKey, List.any_append, List.any_cons, List.any_nil]
    simp

theorem hasStreamKey_insertStream_of (rows : List StreamRow)
    (t : String) (pc : Int) (al : String) (t' : String) (pc' : Int) (al' : String)
    (now : Int) (h : hasStreamKey rows t pc al = true) :
    hasStreamKey (insertStream rows t' pc' al' now) t pc al = true := by
  by_cases h' : hasStreamKey rows t' pc' al'
  · simpa [insertStream, h']
  · simp only [insertStream, h', if_false]
    simp only [hasStreamKey, List.any_append] at *
    simp [h]

theorem hasStreamKey_applyStreams_of (batch : List (String × Int × String)) :
    ∀ (rows : List StreamRow) (t : String) (pc : Int) (al : String) (now : Int),
      hasStreamKey rows t pc al = true →
      hasStreamKey (applyStreams rows batch now) t pc al = true := by
  induction batch with
  | nil => intro rows t pc al now h; simpa [applyStreams]
  | cons k ks ih =>
      intro rows t pc al now h
      simpa [applyStreams] using
        ih (insertStream rows k.1 k.2.1 k.2.2 now) t pc al now
          (hasStreamKey_insertStream_of rows t pc al k.1 k.2.1 k.2.2 now h)

theorem batch_keys_hasStreamKey_applyStreams (batch : List (String × Int × String)) :
    ∀ (rows : List StreamRow) (now : Int), ∀ k ∈ batch,
      hasStreamKey (applyStreams rows batch now) k.1 k.2.1 k.2.2 = true := by
  induction batch with
  | nil => intro rows now k hk; simp at hk
  | cons c cs ih =>
      intro rows now k hk
      rcases List.mem_cons.mp hk with h | h
      · subst h
        simpa [applyStreams] using
          hasStreamKey_applyStreams_of cs (insertStream rows k.1 k.2.1 k.2.2 now)
            k.1 k.2.1 k.2.2 now
            (hasStreamKey_insertStream_self rows k.1 k.2.1 k.2.2 now)
      · simpa [applyStreams] using ih (insertStream rows c.1 c.2.1 c.2.2 now) now k h

theorem applyStreams_noop (batch : List (String × Int × String)) :
    ∀ (rows : List StreamRow) (now : Int),
      (∀ k ∈ batch, hasStreamKey rows k.1 k.2.1 k.2.2 = true) →
      applyStreams rows batch now = rows := by
  induction batch with
  | nil => intro rows now _; rfl
  | cons c cs ih =>
      intro rows now h
      have hc := h c (List.mem_cons_self c cs)
      have step : applyStreams rows (c :: cs) now
          = applyStreams (insertStream rows c.1 c.2.1 c.2.2 now) cs now := by
        simp [applyStreams]
      rw [step, insertStream_noop rows c.1 c.2.1 c.2.2 now hc]
      exact ih rows now fun k hk => h k (List.mem_cons_of_mem c hk)

/-- Re-applying the same stream batch (at any later time) inserts nothing. -/
theorem applyStreams_idem (rows : List StreamRow) (batch : List (String × Int × String))
    (n1 n2 : Int) :
    applyStreams (applyStreams rows batch n1) batch n2 = applyStreams rows batch n1 :=
  applyStreams_noop batch (applyStreams rows batch n1) n2
    (batch_keys_hasStreamKey_applyStreams batch rows n1)


/-! ## Shape lemmas for the transactional runner -/

theorem run_none_eq (db : DB) (a : AlbumData) (td : List TrackIn) (sd : List StreamIn)
    (now : Int) :
    save_complete_album_run db a td sd now none
      = ((save_complete_album db a td sd now).1,
         Except.ok (save_complete_album db a td sd now).2) := rfl

theorem run_shape (db : DB) (a : AlbumData) (td : List TrackIn) (sd : List StreamIn)
    (now : Int) (failAt : Option SaveStep) :
    save_complete_album_run db a td sd now failAt
        = ((save_complete_album db a td sd now).1,
           Except.ok (save_complete_album db a td sd now).2)
    ∨ ∃ e, save_complete_album_run db a td sd now failAt = (db, Except.error e) := by
  rcases failAt with _ | st
  · exact Or.inl rfl
  · refine Or.inr ?_
    cases st
    · exact ⟨_, rfl⟩
    · exact ⟨_, rfl⟩
    · exact ⟨_, rfl⟩

/-! ## Claim C1 -/

/-- C1: Persistence is idempotent.  Running `save_complete_album` twice with
identical album record, track list and stream list returns the same
tracks/streams counts and leaves the database in exactly the state of one
run — albums and tracks rows are updated in place, and inserting a stream
whose `(track_id, play_count, album_id)` key is already present is a no-op —
given the primary-key invariant of the tracks table. -/
theorem c1_save_complete_album_idempotent (db : DB) (a : AlbumData)
    (td : List TrackIn) (sd : List StreamIn) (n1 n2 : Int)
    (hnd : (trackKeys db.tracks).Nodup) :
    save_complete_album (save_complete_album db a td sd n1).1 a td sd n2
      = save_complete_album db a td sd n1
    ∧ (∀ (rows : List StreamRow) (t : String) (pc : Int) (al : String) (now : Int),
        hasStreamKey rows t pc al = true → insertStream rows t pc al now = rows) := by
  constructor
  · simp only [save_complete_album, Prod.mk.injEq, DB.mk.injEq]
    exact ⟨⟨saveAlbum_idem _ _, applyTracks_idem _ _ hnd, applyStreams_idem _ _ _ _⟩, trivial⟩
  · exact fun rows t pc al now h => insertStream_noop rows t pc al now h

/-- C1 witness: the idempotence theorem applied to a concrete one-track
album over the empty database. -/
theorem c1_witness :
    (trackKeys (DB.mk [] [] []).tracks).Nodup
    ∧ save_complete_album
        (save_complete_album ⟨[], [], []⟩ ⟨"a1", "ar1", "Album", "c.jpg", none, "Artist"⟩
          [⟨"t1", "Song"⟩] [⟨"t1", 10⟩] 0).1
        ⟨"a1", "ar1", "Album", "c.jpg", none, "Artist"⟩ [⟨"t1", "Song"⟩] [⟨"t1", 10⟩] 5
      = save_complete_album ⟨[], [], []⟩ ⟨"a1", "ar1", "Album", "c.jpg", none, "Artist"⟩
          [⟨"t1", "Song"⟩] [⟨"t1", 10⟩] 0 :=
  ⟨by decide,
   (c1_save_complete_album_idempotent ⟨[], [], []⟩
      ⟨"a1", "ar1", "Album", "c.jpg", none, "Artist"⟩
      [⟨"t1", "Song"⟩] [⟨"t1", 10⟩] 0 5 (by decide)).1⟩

/-! ## Claim C4 -/

/-- C4 counterexample: with the stream sample already present in the
database, `save_complete_album` succeeds and returns `streams_count = 1`
although zero stream rows were actually written (the table is unchanged), so
the returned count does not equal the number of samples actually written. -/
theorem c4_counterexample :
    (save_complete_album_run ⟨[], [], [⟨"t1", 10, "a1", 0⟩]⟩
        ⟨"a1", "ar1", "Album", "", none, "Artist"⟩ [⟨"t1", "Song"⟩] [⟨"t1", 10⟩] 7 none).2
      = Except.ok ⟨"a1", "ar1", 1, 1⟩
    ∧ (save_complete_album_run ⟨[], [], [⟨"t1", 10, "a1", 0⟩]⟩
        ⟨"a1", "ar1", "Album", "", none, "Artist"⟩ [⟨"t1", "Song"⟩] [⟨"t1", 10⟩] 7 none).1.streams
      = [⟨"t1", 10, "a1", 0⟩]
    ∧ (1 : Nat) ≠ 0 :=
  ⟨rfl, rfl, by decide⟩

/-- C4 (amended): on any step failure the whole album transaction rolls back
(the database is unchanged) and the upload task returns the error as a value
in its per-album result record rather than raising; on success the returned
counts equal the lengths of the submitted track and sample batches (which,
for streams, may exceed the rows actually inserted when keys conflict). -/
theorem c4_rollback_error_as_value :
    (∀ (db : DB) (a : AlbumData) (td : List TrackIn) (sd : List StreamIn)
        (now : Int) (st : SaveStep),
        (save_complete_album_run db a td sd now (some st)).1 = db
        ∧ ∃ e, (save_complete_album_run db a td sd now (some st)).2 = Except.error e)
    ∧ (∀ (pl : UploadPayload) (db : DB) (today : YMDDate) (now : Int) (st : SaveStep),
        (upload_album_metrics_task pl db today now (some st)).1 = db
        ∧ (upload_album_metrics_task pl db today now (some st)).2.status = "error"
        ∧ (upload_album_metrics_task pl db today now (some st)).2.error.isSome = true
        ∧ (upload_album_metrics_task pl db today now (some st)).2.album_id = pl.album_id)
    ∧ (∀ (db : DB) (a : AlbumData) (td : List TrackIn) (sd : List StreamIn) (now : Int),
        (save_complete_album_run db a td sd now none).2
          = Except.ok ⟨a.album_id, a.artist_id, td.length, sd.length⟩) := by
  refine ⟨?_, ?_, ?_⟩
  · intro db a td sd now st
    cases st
    · exact ⟨rfl, ⟨_, rfl⟩⟩
    · exact ⟨rfl, ⟨_, rfl⟩⟩
    · exact ⟨rfl, ⟨_, rfl⟩⟩
  · intro pl db today now st
    cases st
    · exact ⟨rfl, rfl, rfl, rfl⟩
    · exact ⟨rfl, rfl, rfl, rfl⟩
    · exact ⟨rfl, rfl, rfl, rfl⟩
  · intro db a td sd now
    simp [save_complete_album_run, save_complete_album_tx]

/-! ## Claim C2 -/

/-- C2: Per-album isolation.  A page of per-album harvest tasks produces one
result record per album; each album's record is determined by that album and
its own fetch outcome alone (siblings with a different outcome oracle that
agrees on this album get the same record); a failing outcome is captured into
an `error` record carrying the album id and the error detail, never raised
(the task functions are total); and the upload task likewise always returns a
record with status `uploaded` or `error`. -/
theorem c2_per_album_isolation (albums : List AlbumRefIn)
    (fetchOf : AlbumRefIn → Except String AlbumResponseM)
    (i : Nat) (h : i < albums.length) :
    (processPage albums fetchOf).length = albums.length
    ∧ (∀ hi : i < (processPage albums fetchOf).length,
        (processPage albums fetchOf).get ⟨i, hi⟩
          = fetch_album_metrics_task (albums.get ⟨i, h⟩) (fetchOf (albums.get ⟨i, h⟩)))
    ∧ (∀ (g : AlbumRefIn → Except String AlbumResponseM),
        g (albums.get ⟨i, h⟩) = fetchOf (albums.get ⟨i, h⟩) →
        ∀ (hi1 : i < (processPage albums g).length)
          (hi2 : i < (processPage albums fetchOf).length),
          (processPage albums g).get ⟨i, hi1⟩ = (processPage albums fetchOf).get ⟨i, hi2⟩)
    ∧ (∀ (a : AlbumRefIn) (e : String),
        fetch_album_metrics_task a (Except.error e)
          = (⟨a.album_id, "error", none, some e⟩, none))
    ∧ (∀ (a : AlbumRefIn) (ad : AlbumResponseM),
        (fetch_album_metrics_task a (Except.ok ad)).1.status = "success"
        ∧ (fetch_album_metrics_task a (Except.ok ad)).1.album_id = a.album_id)
    ∧ (∀ (pl : UploadPayload) (db : DB) (today : YMDDate) (now : Int)
          (failAt : Option SaveStep),
        ((upload_album_metrics_task pl db today now failAt).2.status = "uploaded"
          ∨ (upload_album_metrics_task pl db today now failAt).2.status = "error")
        ∧ (upload_album_metrics_task pl db today now failAt).2.album_id = pl.album_id) := by
  refine ⟨?_, ?_, ?_, ?_, ?_, ?_⟩
  · simp [processPage]
  · intro hi
    simp [processPage, List.get_eq_getElem, List.getElem_map]
  · intro g hg hi1 hi2
    simp only [processPage, List.get_eq_getElem, List.getElem_map]
    rw [show albums[i] = albums.get ⟨i, h⟩ from rfl, hg]
  · intro a e
    rfl
  · intro a ad
    exact ⟨rfl, rfl⟩
  · intro pl db today now failAt
    rcases run_shape db
        ⟨pl.album_id, pl.artist_id, pl.album_name, pl.cover_art,
         pl.release_date.map fun s => (parseYMD s).getD today, pl.artist_name⟩
        (pl.tracks.map fun t => ⟨t.track_id, t.name⟩)
        (pl.tracks.map fun t => ⟨t.track_id, t.playcount⟩) now failAt with hr | ⟨e, hr⟩
    · constructor
      · left
        simp [upload_album_metrics_task, hr]
      · simp [upload_album_metrics_task, hr]
    · constructor
      · right
        simp [upload_album_metrics_task, hr]
      · simp [upload_album_metrics_task, hr]

/-- C2 witness: a two-album page where the first album succeeds and the
second fails, instantiating the isolation theorem at the failing album. -/
theorem c2_witness :
    (1 : Nat) < ([⟨"a1", "ar1", "Artist One"⟩, ⟨"a2", "ar2", "Artist Two"⟩] :
        List AlbumRefIn).length
    ∧ (processPage [⟨"a1", "ar1", "Artist One"⟩, ⟨"a2", "ar2", "Artist Two"⟩]
          (fun a => if a.album_id = "a1"
            then Except.ok ⟨"a1", "Album One", "ar1", "Artist One",
              [⟨"t1", "Song", 10, "Artist One"⟩], "", none⟩
            else Except.error "HarvestError")).length
        = ([⟨"a1", "ar1", "Artist One"⟩, ⟨"a2", "ar2", "Artist Two"⟩] :
            List AlbumRefIn).length
    ∧ ∀ (a : AlbumRefIn) (e : String),
        fetch_album_metrics_task a (Except.error e)
          = (⟨a.album_id, "error", none, some e⟩, none) := by
  refine ⟨by decide, ?_, ?_⟩
  · exact (c2_per_album_isolation _ _ 1 (by decide)).1
  · exact (c2_per_album_isolation
      [⟨"a1", "ar1", "Artist One"⟩, ⟨"a2", "ar2", "Artist Two"⟩]
      (fun a => if a.album_id = "a1"
        then Except.ok ⟨"a1", "Album One", "ar1", "Artist One",
          [⟨"t1", "Song", 10, "Artist One"⟩], "", none⟩
        else Except.error "HarvestError") 1 (by decide)).2.2.2.1

/-! ## Claims C3 and C7: token manager -/

theorem getTokensTM_of_valid (s : TMState) (now : ℚ) (cacheFile : Option CacheData)
    (fresh : String × String) (hc : clientValid s now = true)
    (hb : bearerValid s now = true) :
    getTokensTM s now cacheFile fresh = (s, false, (s.client_token, s.bearer_token)) := by
  simp [getTokensTM, hc, hb]

theorem refreshedState_client_valid (now : ℚ) (fresh : String × String) :
    clientValid (refreshedState now fresh) now = true := by
  simp only [clientValid, refreshedState, Option.isSome_some, Bool.true_and,
    decide_eq_true_eq]
  linarith

theorem refreshedState_bearer_valid (now : ℚ) (fresh : String × String) :
    bearerValid (refreshedState now fresh) now = true := by
  simp only [bearerValid, refreshedState, Option.isSome_some, Bool.true_and,
    decide_eq_true_eq]
  linarith

theorem runCalls_of_valid (now : ℚ) (cacheFile : Option CacheData)
    (fresh : String × String) :
    ∀ (n : Nat) (s : TMState), clientValid s now = true → bearerValid s now = true →
      runCalls now cacheFile fresh n s
        = (s, 0, List.replicate n (s.client_token, s.bearer_token)) := by
  intro n
  induction n with
  | zero => intro s _ _; rfl
  | succ m ih =>
      intro s hc hb
      simp [runCalls, getTokensTM_of_valid s now cacheFile fresh hc hb, ih s hc hb,
        List.replicate_succ]

theorem tryLoadFromCache_of_invalid (s : TMState) (now : ℚ)
    (cacheFile : Option CacheData) (h : cacheValid cacheFile now = false) :
    tryLoadFromCache s now cacheFile = (s, false) := by
  rcases cacheFile with _ | d
  · rfl
  · simp only [cacheValid, decide_eq_false_iff_not] at h
    simp [tryLoadFromCache, h]

/-- C3 counterexample: with the client token absent and the bearer token held
and valid well past the five-minute margin, `get_tokens` still triggers a
refresh that replaces the bearer token — refuting that a credential is
refreshed only when `now >= expires_at - margin` for that credential. -/
theorem c3_counterexample :
    bearerValid ⟨none, some "B", 10000000000, 0⟩ 1000 = true
    ∧ (getTokensTM ⟨none, some "B", 10000000000, 0⟩ 1000 none ("freshB", "freshC")).2.1
        = true
    ∧ (getTokensTM ⟨none, some "B", 10000000000, 0⟩ 1000 none
        ("freshB", "freshC")).1.bearer_token = some "freshB"
    ∧ ¬ (some "freshB" = some "B") := by
  refine ⟨?_, rfl, rfl, by decide⟩
  norm_num [bearerValid]

/-- C3 (amended): `get_tokens` evaluates per-credential validity with exactly
the five-minute margins (300 s for the client token, 300000 ms for the bearer
token): it triggers a refresh exactly when the held pair is not fully valid
and the cache does not supply a pair valid under the same margin, and it
performs no refresh when both held credentials satisfy
`now < expires_at - margin`.  A refresh renews both credentials jointly, so a
still-valid credential is refreshed whenever its partner is invalid. -/
theorem c3_refresh_boundary (s : TMState) (now : ℚ) (cacheFile : Option CacheData)
    (fresh : String × String) :
    ((getTokensTM s now cacheFile fresh).2.1
        = (!(clientValid s now && bearerValid s now) && !cacheValid cacheFile now))
    ∧ (clientValid s now = true → bearerValid s now = true →
        getTokensTM s now cacheFile fresh = (s, false, (s.client_token, s.bearer_token))) := by
  constructor
  · by_cases hv : (clientValid s now && bearerValid s now) = true
    · simp [getTokensTM, hv]
    · have hv' : (clientValid s now && bearerValid s now) = false := by
        simpa using hv
      rcases cacheFile with _ | d
      · simp [getTokensTM, hv', tryLoadFromCache, cacheValid]
      · by_cases hd : now < d.expires_at - 300
        · have hload : tryLoadFromCache s now (some d)
              = (⟨some d.client_token, some d.bearer_token,
                  d.expires_at * 1000, d.expires_at⟩, true) := by
            simp [tryLoadFromCache, hd]
          have hcv : clientValid ⟨some d.client_token, some d.bearer_token,
              d.expires_at * 1000, d.expires_at⟩ now = true := by
            simp only [clientValid, Option.isSome_some, Bool.true_and, decide_eq_true_eq]
            exact hd
          have hbv : bearerValid ⟨some d.client_token, some d.bearer_token,
              d.expires_at * 1000, d.expires_at⟩ now = true := by
            simp only [bearerValid, Option.isSome_some, Bool.true_and, decide_eq_true_eq]
            linarith
          simp [getTokensTM, hv', hload, hcv, hbv, cacheValid, decide_eq_true hd]
        · have hload := tryLoadFromCache_of_invalid s now (some d)
            (by simp [cacheValid, hd])
          simp [getTokensTM, hv', hload, cacheValid, hd]
  · intro hc hb
    exact getTokensTM_of_valid s now cacheFile fresh hc hb

/-- C3 witness: a fully valid pair at a concrete time is returned unchanged
with no refresh, by the amended boundary theorem. -/
theorem c3_witness :
    clientValid ⟨some "C", some "B", 1000000000, 1000000⟩ 0 = true
    ∧ bearerValid ⟨some "C", some "B", 1000000000, 1000000⟩ 0 = true
    ∧ getTokensTM ⟨some "C", some "B", 1000000000, 1000000⟩ 0 none ("nb", "nc")
        = (⟨some "C", some "B", 1000000000, 1000000⟩, false, (some "C", some "B")) :=
  ⟨by norm_num [clientValid], by norm_num [bearerValid],
   (c3_refresh_boundary ⟨some "C", some "B", 1000000000, 1000000⟩ 0 none
      ("nb", "nc")).2 (by norm_num [clientValid]) (by norm_num [bearerValid])⟩

/-- C7: Single-flight refresh.  The whole `get_tokens` body runs under
`self.lock`, so `N` concurrent calls execute as `N` serialized iterations:
starting from an expired pair with no usable cache, exactly one playwright
refresh fires across all `N` calls, and every caller receives the refreshed
`(client_token, bearer_token)` pair. -/
theorem c7_single_flight_refresh (s : TMState) (now : ℚ)
    (cacheFile : Option CacheData) (fresh : String × String) (N : Nat)
    (hc : clientValid s now = false) (hb : bearerValid s now = false)
    (hcache : cacheValid cacheFile now = false) (hN : 1 ≤ N) :
    (runCalls now cacheFile fresh N s).2.1 = 1
    ∧ (runCalls now cacheFile fresh N s).2.2
        = List.replicate N (some fresh.2, some fresh.1) := by
  cases N with
  | zero => exact absurd hN (by decide)
  | succ n => ?_
  have hload := tryLoadFromCache_of_invalid s now cacheFile hcache
  have hout : getTokensTM s now cacheFile fresh
      = (refreshedState now fresh, true, (some fresh.2, some fresh.1)) := by
    simp [getTokensTM, hc, hload, refreshedState]
  have hrun := runCalls_of_valid now cacheFile fresh n (refreshedState now fresh)
    (refreshedState_client_valid now fresh) (refreshedState_bearer_valid now fresh)
  constructor
  · simp [runCalls, hout, hrun]
  · simp only [runCalls, hout, hrun]
    simp [refreshedState, List.replicate_succ]

/-- C7 witness: three serialized calls on an empty token state refresh
exactly once and all return the fresh pair. -/
theorem c7_witness :
    clientValid ⟨none, none, 0, 0⟩ 0 = false
    ∧ (runCalls 0 none ("B", "C") 3 ⟨none, none, 0, 0⟩).2.1 = 1
    ∧ (runCalls 0 none ("B", "C") 3 ⟨none, none, 0, 0⟩).2.2
        = List.replicate 3 (some "C", some "B") :=
  ⟨by decide,
   (c7_single_flight_refresh ⟨none, none, 0, 0⟩ 0 none ("B", "C") 3
      (by decide) (by decide) (by decide) (by decide)).1,
   (c7_single_flight_refresh ⟨none, none, 0, 0⟩ 0 none ("B", "C") 3
      (by decide) (by decide) (by decide) (by decide)).2⟩

/-! ## Claim C5 -/

theorem iterFetch_succ (catalog : List String) (s : TrackerState) (n : Nat) :
    iterFetch catalog s (n + 1)
      = (fetch_albums_batch_intended catalog (iterFetch catalog s n)).1 :=
  rfl

/-- C5: Harvest retry contract.  `get_album_tracks` makes at most
`max_retries = 3` attempts; after each failed attempt except the final one it
sleeps `2 ^ attempt + random(0, 1)` seconds (the jitter oracle), with no sleep
after the final attempt; and when all three attempts fail it raises an error
whose message aggregates every per-attempt error message. -/
theorem c5_retry_contract {α : Type} (oracle : Nat → Except String α)
    (jitter : Nat → ℚ) :
    (get_album_tracks_run oracle jitter).attemptsMade ≤ 3
    ∧ (get_album_tracks_run oracle jitter).sleeps
        = (List.range ((get_album_tracks_run oracle jitter).attemptsMade - 1)).map
            (fun a => (2 : ℚ) ^ a + jitter a)
    ∧ (∀ e0 e1 e2, oracle 0 = Except.error e0 → oracle 1 = Except.error e1 →
        oracle 2 = Except.error e2 →
        (get_album_tracks_run oracle jitter).result
          = Except.error ("Failed to fetch album tracks after " ++ toString 3
              ++ " attempts: " ++ String.intercalate "\n"
                  ["Attempt " ++ toString 1 ++ ": " ++ e0,
                   "Attempt " ++ toString 2 ++ ": " ++ e1,
                   "Attempt " ++ toString 3 ++ ": " ++ e2])) := by
  rcases h0 : oracle 0 with e0 | v0
  · rcases h1 : oracle 1 with e1 | v1
    · rcases h2 : oracle 2 with e2 | v2
      · have hval : get_album_tracks_run oracle jitter
            = ⟨Except.error ("Failed to fetch album tracks after " ++ toString 3
                ++ " attempts: " ++ String.intercalate "\n"
                    ["Attempt " ++ toString 1 ++ ": " ++ e0,
                     "Attempt " ++ toString 2 ++ ": " ++ e1,
                     "Attempt " ++ toString 3 ++ ": " ++ e2]), 3,
               [(2 : ℚ) ^ 0 + jitter 0, (2 : ℚ) ^ 1 + jitter 1]⟩ := by
          simp [get_album_tracks_run, retryGo, h0, h1, h2]
        refine ⟨by rw [hval], ?_, ?_⟩
        · rw [hval]
          simp [List.range_succ]
        · intro f0 f1 f2 hf0 hf1 hf2
          obtain rfl : e0 = f0 := by injection hf0
          obtain rfl : e1 = f1 := by injection hf1
          obtain rfl : e2 = f2 := by injection hf2
          rw [hval]
      · have hval : get_album_tracks_run oracle jitter
            = ⟨Except.ok v2, 3, [(2 : ℚ) ^ 0 + jitter 0, (2 : ℚ) ^ 1 + jitter 1]⟩ := by
          simp [get_album_tracks_run, retryGo, h0, h1, h2]
        refine ⟨by rw [hval], ?_, ?_⟩
        · rw [hval]
          simp [List.range_succ]
        · intro f0 f1 f2 hf0 hf1 hf2
          exact absurd hf2 (by simp)
    · have hval : get_album_tracks_run oracle jitter
          = ⟨Except.ok v1, 2, [(2 : ℚ) ^ 0 + jitter 0]⟩ := by
        simp [get_album_tracks_run, retryGo, h0, h1]
      refine ⟨by rw [hval]; simp, ?_, ?_⟩
      · rw [hval]
        simp [List.range_succ]
      · intro f0 f1 f2 hf0 hf1 hf2
        exact absurd hf1 (by simp)
  · have hval : get_album_tracks_run oracle jitter = ⟨Except.ok v0, 1, []⟩ := by
      simp [get_album_tracks_run, retryGo, h0]
    refine ⟨by rw [hval]; simp, ?_, ?_⟩
    · rw [hval]
      simp
    · intro f0 f1 f2 hf0 hf1 hf2
      exact absurd hf0 (by simp)

/-- C5 witness: three failing attempts aggregate the three error messages,
by the retry-contract theorem. -/
theorem c5_witness :
    (get_album_tracks_run
        ((fun _ => Except.error "boom") : Nat → Except String Unit)
        (fun _ => (0 : ℚ))).result
      = Except.error ("Failed to fetch album tracks after " ++ toString 3
          ++ " attempts: " ++ String.intercalate "\n"
              ["Attempt " ++ toString 1 ++ ": " ++ "boom",
               "Attempt " ++ toString 2 ++ ": " ++ "boom",
               "Attempt " ++ toString 3 ++ ": " ++ "boom"]) :=
  (c5_retry_contract ((fun _ => Except.error "boom") : Nat → Except String Unit)
      (fun _ => (0 : ℚ))).2.2 "boom" "boom" "boom" rfl rfl rfl

/-! ## Claim C6 -/

theorem mul_lt_of_lt_ceilDiv (K P m : Nat) (hP : 0 < P) (h : m < ceilDiv K P) :
    m * P < K := by
  have h2 : (m + 1) * P ≤ K + P - 1 := (Nat.le_div_iff_mul_le hP).mp h
  have h1 : m * P + P ≤ K + P - 1 := by
    calc m * P + P = (m + 1) * P := by ring
      _ ≤ K + P - 1 := h2
  have h3 : m * P + P < K + P :=
    lt_of_le_of_lt h1 (Nat.sub_lt (by omega) (by omega))
  exact Nat.lt_of_add_lt_add_right h3

theorem le_ceilDiv_mul (K P : Nat) (hP : 0 < P) : K ≤ ceilDiv K P * P := by
  by_contra hlt
  push_neg at hlt
  have h1 : ceilDiv K P * P + P ≤ K + P - 1 := by omega
  have h2 : ceilDiv K P + 1 ≤ ceilDiv K P := by
    apply (Nat.le_div_iff_mul_le hP).mpr
    calc (ceilDiv K P + 1) * P = ceilDiv K P * P + P := by ring
      _ ≤ K + P - 1 := h1
  omega

theorem page_nonempty (catalog : List String) (P m : Nat) (hP : 0 < P)
    (hK : m * P < catalog.length) :
    ((catalog.drop (m * P)).take P).isEmpty = false := by
  rcases hl : (catalog.drop (m * P)).take P with _ | ⟨x, xs⟩
  · exfalso
    have hlen := congrArg List.length hl
    simp [List.length_take, List.length_drop, Nat.min_eq_zero_iff] at hlen
    omega
  · rfl

theorem iterFetch_offset (catalog : List String) (P : Nat) (hP : 0 < P) :
    ∀ n, n ≤ ceilDiv catalog.length P →
      iterFetch catalog ⟨0, P⟩ n = ⟨n * P, P⟩ := by
  intro n
  induction n with
  | zero => intro _; simp [iterFetch]
  | succ m ih =>
      intro hm
      have hm' : m ≤ ceilDiv catalog.length P := Nat.le_of_succ_le hm
      have hK := mul_lt_of_lt_ceilDiv catalog.length P m hP hm
      have hne := page_nonempty catalog P m hP hK
      rw [iterFetch_succ, ih hm']
      simp only [fetch_albums_batch_intended, get_next_batch, get_all_albums_intended,
        hne, Bool.false_eq_true, if_false]
      simp [Nat.succ_mul]

/-- C6: Pagination termination and reset — code bug.  As written,
`DatabaseService.get_all_albums` runs syntactically invalid SQL (a stray
comma before `FROM`) and `_fetch_albums_batch_async` has no try/except, so
every dispatch raises the database error after advancing the cursor, which is
therefore never reset, and no page — empty or otherwise — is ever observed
(first conjunct: the faithful embedding evaluated at every tracker state).
Over the intended accessor (the SQL slip removed) the coordinator behaves
exactly as the claim states: dispatches `1 .. ceilDiv K P` observe non-empty
pages and enqueue the next page, while dispatch number `ceilDiv K P + 1`
(0-based index `ceilDiv K P`) observes an empty page, returns the
cycle-complete result, resets the cursor offset to 0, and enqueues no
next-page task. -/
theorem c6_pagination_code_bug (catalog : List String) (P : Nat) (hP : 0 < P) :
    (∀ s : TrackerState, fetch_albums_batch catalog s
        = (⟨s.current_offset + s.batch_size, s.batch_size⟩,
           Except.error "PostgresSyntaxError: syntax error at or near \"FROM\""))
    ∧ nthDispatch catalog ⟨0, P⟩ (ceilDiv catalog.length P)
        = ⟨"complete", 0, [], false⟩
    ∧ iterFetch catalog ⟨0, P⟩ (ceilDiv catalog.length P + 1) = ⟨0, P⟩
    ∧ ∀ m < ceilDiv catalog.length P,
        (nthDispatch catalog ⟨0, P⟩ m).status = "processing"
        ∧ (nthDispatch catalog ⟨0, P⟩ m).enqueued_next = true := by
  have hstate := iterFetch_offset catalog P hP (ceilDiv catalog.length P) (le_refl _)
  have hdrop : catalog.drop (ceilDiv catalog.length P * P) = [] :=
    List.drop_eq_nil_of_le (le_ceilDiv_mul catalog.length P hP)
  have hempty : ((catalog.drop (ceilDiv catalog.length P * P)).take P).isEmpty = true := by
    simp [hdrop]
  refine ⟨fun s => rfl, ?_, ?_, ?_⟩
  · unfold nthDispatch
    rw [hstate]
    simp [fetch_albums_batch_intended, get_next_batch, get_all_albums_intended, hempty]
  · rw [iterFetch_succ, hstate]
    simp [fetch_albums_batch_intended, get_next_batch, get_all_albums_intended, hempty]
  · intro m hm
    have hst := iterFetch_offset catalog P hP m (le_of_lt hm)
    have hK := mul_lt_of_lt_ceilDiv catalog.length P m hP hm
    have hne := page_nonempty catalog P m hP hK
    unfold nthDispatch
    rw [hst]
    constructor
    · simp [fetch_albums_batch_intended, get_next_batch, get_all_albums_intended, hne]
    · simp [fetch_albums_batch_intended, get_next_batch, get_all_albums_intended, hne]

/-- C6 witness: the first dispatch from the code's initial tracker state
(offset 0, batch size 50) raises the SQL error with the cursor advanced to
50, while over the intended accessor a three-album catalog with page size 2
completes at the third dispatch (ceil(3/2) + 1 = 3) with the cursor reset
to 0. -/
theorem c6_witness :
    (0 : Nat) < 2
    ∧ fetch_albums_batch ["a", "b", "c"] ⟨0, 50⟩
        = (⟨50, 50⟩,
           Except.error "PostgresSyntaxError: syntax error at or near \"FROM\"")
    ∧ nthDispatch ["a", "b", "c"] ⟨0, 2⟩ (ceilDiv (["a", "b", "c"] : List String).length 2)
        = ⟨"complete", 0, [], false⟩
    ∧ iterFetch ["a", "b", "c"] ⟨0, 2⟩ (ceilDiv (["a", "b", "c"] : List String).length 2 + 1)
        = ⟨0, 2⟩ :=
  ⟨by decide,
   (c6_pagination_code_bug ["a", "b", "c"] 2 (by decide)).1 ⟨0, 50⟩,
   (c6_pagination_code_bug ["a", "b", "c"] 2 (by decide)).2.1,
   (c6_pagination_code_bug ["a", "b", "c"] 2 (by decide)).2.2.1⟩

/-! ## Parsing lemmas (claims C8, C9, C10) -/

theorem splitOnChar_no_sep (sep : Char) :
    ∀ (a : List Char), (∀ c ∈ a, ¬ c = sep) → splitOnChar sep a = [a] := by
  intro a
  induction a with
  | nil => intro _; rfl
  | cons c cs ih =>
      intro h
      have hc : ¬ c = sep := h c (List.mem_cons_self c cs)
      have hr := ih fun x hx => h x (List.mem_cons_of_mem c hx)
      simp [splitOnChar, hc, hr]

theorem splitOnChar_append (sep : Char) :
    ∀ (a b : List Char), (∀ c ∈ a, ¬ c = sep) →
      splitOnChar sep (a ++ sep :: b) = a :: splitOnChar sep b := by
  intro a
  induction a with
  | nil => intro b _; simp [splitOnChar]
  | cons c cs ih =>
      intro b h
      have hc : ¬ c = sep := h c (List.mem_cons_self c cs)
      have hr := ih b fun x hx => h x (List.mem_cons_of_mem c hx)
      simp [splitOnChar, hc, hr]

theorem takeWhile_all (p : Char → Bool) :
    ∀ (l : List Char), (∀ c ∈ l, p c = true) → l.takeWhile p = l := by
  intro l
  induction l with
  | nil => intro _; rfl
  | cons c cs ih =>
      intro h
      have hc := h c (List.mem_cons_self c cs)
      have hr := ih fun x hx => h x (List.mem_cons_of_mem c hx)
      simp [List.takeWhile_cons, hc, hr]

theorem digit_ne (c x : Char) (hx : x.isDigit = false) (h : c.isDigit = true) :
    ¬ c = x := by
  intro he
  rw [he, hx] at h
  exact Bool.false_ne_true h

theorem one_le_daysInMonth (y m : Nat) : 1 ≤ daysInMonth y m := by
  unfold daysInMonth
  split_ifs <;> omega

theorem parseYMDChars_structured (ys ms ds : List Char)
    (hysd : ys.all Char.isDigit = true) (hmsd : ms.all Char.isDigit = true)
    (hdsd : ds.all Char.isDigit = true)
    (hly : ys.length = 4) (hlm : ms.length = 2) (hld : ds.length = 2)
    (hy : 1 ≤ natOfDigits ys) (hm1 : 1 ≤ natOfDigits ms) (hm2 : natOfDigits ms ≤ 12)
    (hd1 : 1 ≤ natOfDigits ds)
    (hd2 : natOfDigits ds ≤ daysInMonth (natOfDigits ys) (natOfDigits ms)) :
    parseYMDChars (ys ++ '-' :: (ms ++ '-' :: ds))
      = some ⟨natOfDigits ys, natOfDigits ms, natOfDigits ds⟩ := by
  have hysnd : ∀ c ∈ ys, ¬ c = '-' := fun c hc =>
    digit_ne c '-' (by decide) (List.all_eq_true.mp hysd c hc)
  have hmsnd : ∀ c ∈ ms, ¬ c = '-' := fun c hc =>
    digit_ne c '-' (by decide) (List.all_eq_true.mp hmsd c hc)
  have hdsnd : ∀ c ∈ ds, ¬ c = '-' := fun c hc =>
    digit_ne c '-' (by decide) (List.all_eq_true.mp hdsd c hc)
  have hsplit : splitOnChar '-' (ys ++ '-' :: (ms ++ '-' :: ds))
      = ys :: ms :: [ds] := by
    rw [splitOnChar_append '-' ys _ hysnd, splitOnChar_append '-' ms ds hmsnd,
      splitOnChar_no_sep '-' ds hdsnd]
  unfold parseYMDChars
  rw [hsplit]
  simp [hysd, hmsd, hdsd, hly, hlm, hld, decide_eq_true hy, decide_eq_true hm1,
    decide_eq_true hm2, decide_eq_true hd1, decide_eq_true hd2]

/-! ## Claim C9 -/

/-- C9 counterexample: at the release-date parse of
`UnofficialSpotifyService.get_album_tracks` (the HarvestClient of the spec), a
release-date string of length 4 (`YYYY`) is not parsed: the result is `none`
(the album's `release_date` stays `None`), refuting that every length-4
release-date string encountered while parsing an album response parses
successfully. -/
theorem c9_counterexample :
    ("2021" : String).length = 4
    ∧ ("2021" : String).data.all Char.isDigit = true
    ∧ parse_release_date_iso "2021" = none :=
  ⟨rfl, by decide, rfl⟩

/-- C9 (amended): in `OfficialSpotifyService.search_albums` the release-date
string is parsed across the three lengths — `YYYY` (4), `YYYY-MM` (7) and
`YYYY-MM-DD` (10) — with month and day defaulting to 01 when absent; in
`UnofficialSpotifyService.get_album_tracks` only the full `YYYY-MM-DD` form
(the part of `isoString` before `T`) parses, shorter forms yielding `None`
without failing the album parse. -/
theorem c9_release_date_parsing :
    (∀ ys : String, ys.length = 4 → ys.data.all Char.isDigit = true →
        1 ≤ natOfDigits ys.data →
        parse_release_date ys = some ⟨natOfDigits ys.data, 1, 1⟩)
    ∧ (∀ ys ms : String, ys.length = 4 → ms.length = 2 →
        ys.data.all Char.isDigit = true → ms.data.all Char.isDigit = true →
        1 ≤ natOfDigits ys.data →
        1 ≤ natOfDigits ms.data → natOfDigits ms.data ≤ 12 →
        parse_release_date (ys ++ "-" ++ ms)
          = some ⟨natOfDigits ys.data, natOfDigits ms.data, 1⟩)
    ∧ (∀ ys ms ds : String, ys.length = 4 → ms.length = 2 → ds.length = 2 →
        ys.data.all Char.isDigit = true → ms.data.all Char.isDigit = true →
        ds.data.all Char.isDigit = true →
        1 ≤ natOfDigits ys.data →
        1 ≤ natOfDigits ms.data → natOfDigits ms.data ≤ 12 →
        1 ≤ natOfDigits ds.data →
        natOfDigits ds.data ≤ daysInMonth (natOfDigits ys.data) (natOfDigits ms.data) →
        parse_release_date (ys ++ "-" ++ ms ++ "-" ++ ds)
          = some ⟨natOfDigits ys.data, natOfDigits ms.data, natOfDigits ds.data⟩)
    ∧ (∀ ys ms ds : String, ys.length = 4 → ms.length = 2 → ds.length = 2 →
        ys.data.all Char.isDigit = true → ms.data.all Char.isDigit = true →
        ds.data.all Char.isDigit = true →
        1 ≤ natOfDigits ys.data →
        1 ≤ natOfDigits ms.data → natOfDigits ms.data ≤ 12 →
        1 ≤ natOfDigits ds.data →
        natOfDigits ds.data ≤ daysInMonth (natOfDigits ys.data) (natOfDigits ms.data) →
        parse_release_date_iso (ys ++ "-" ++ ms ++ "-" ++ ds)
          = some (formatYMD ⟨natOfDigits ys.data, natOfDigits ms.data,
              natOfDigits ds.data⟩)) := by
  refine ⟨?_, ?_, ?_, ?_⟩
  · intro ys hlen hdig hy
    unfold parse_release_date
    rw [if_pos hlen]
    unfold parseYMD
    have hdata : (ys ++ "-01-01").data = ys.data ++ '-' :: (['0', '1'] ++ '-' :: ['0', '1']) := by
      rw [String.data_append]
      exact congrArg (ys.data ++ .) (by decide)
    rw [hdata]
    exact parseYMDChars_structured ys.data ['0', '1'] ['0', '1'] hdig (by decide)
      (by decide) hlen (by decide) (by decide) hy (by decide) (by decide) (by decide)
      (by simp [(by decide : natOfDigits ['0', '1'] = 1), daysInMonth])
  · intro ys ms hly hlm hysd hmsd hy hm1 hm2
    have hl : (ys ++ "-" ++ ms).length = 7 := by
      simp [String.length_append, hly, hlm, show ("-" : String).length = 1 from rfl]
    unfold parse_release_date
    rw [hl]
    simp only [Nat.reduceEqDiff, if_false, if_true]
    unfold parseYMD
    have hdata : ((ys ++ "-" ++ ms) ++ "-01").data
        = ys.data ++ '-' :: (ms.data ++ '-' :: ['0', '1']) := by
      simp only [String.data_append]
      simp [List.append_assoc]
    rw [hdata]
    exact parseYMDChars_structured ys.data ms.data ['0', '1'] hysd hmsd (by decide)
      hly hlm (by decide) hy hm1 hm2 (by decide) (one_le_daysInMonth _ _)
  · intro ys ms ds hly hlm hld hysd hmsd hdsd hy hm1 hm2 hd1 hd2
    have hl : (ys ++ "-" ++ ms ++ "-" ++ ds).length = 10 := by
      simp [String.length_append, hly, hlm, hld, show ("-" : String).length = 1 from rfl]
    unfold parse_release_date
    rw [hl]
    simp only [Nat.reduceEqDiff, if_false]
    unfold parseYMD
    have hdata : (ys ++ "-" ++ ms ++ "-" ++ ds).data
        = ys.data ++ '-' :: (ms.data ++ '-' :: ds.data) := by
      simp only [String.data_append]
      simp [List.append_assoc]
    rw [hdata]
    exact parseYMDChars_structured ys.data ms.data ds.data hysd hmsd hdsd
      hly hlm hld hy hm1 hm2 hd1 hd2
  · intro ys ms ds hly hlm hld hysd hmsd hdsd hy hm1 hm2 hd1 hd2
    unfold parse_release_date_iso
    have hdata : (ys ++ "-" ++ ms ++ "-" ++ ds).data
        = ys.data ++ '-' :: (ms.data ++ '-' :: ds.data) := by
      simp only [String.data_append]
      simp [List.append_assoc]
    rw [hdata]
    have htake : (ys.data ++ '-' :: (ms.data ++ '-' :: ds.data)).takeWhile
        (fun c => c != 'T') = ys.data ++ '-' :: (ms.data ++ '-' :: ds.data) := by
      apply takeWhile_all
      intro c hc
      have hne : ¬ c = 'T' := by
        rcases List.mem_append.mp hc with h | h
        · exact digit_ne c 'T' (by decide) (List.all_eq_true.mp hysd c h)
        · rcases List.mem_cons.mp h with h' | h'
          · rw [h']; decide
          · rcases List.mem_append.mp h' with h2 | h2
            · exact digit_ne c 'T' (by decide) (List.all_eq_true.mp hmsd c h2)
            · rcases List.mem_cons.mp h2 with h3 | h3
              · rw [h3]; decide
              · exact digit_ne c 'T' (by decide) (List.all_eq_true.mp hdsd c h3)
      simpa using hne
    rw [htake, parseYMDChars_structured ys.data ms.data ds.data hysd hmsd hdsd
      hly hlm hld hy hm1 hm2 hd1 hd2]
    rfl

/-- C9 witness: `2021`, `2021-03` and `2021-03-15` parse with the defaulted
components, and the unofficial full-date parse re-formats `2021-03-15`, by
the amended theorem. -/
theorem c9_witness :
    parse_release_date "2021" = some ⟨natOfDigits ("2021" : String).data, 1, 1⟩
    ∧ parse_release_date ("2021" ++ "-" ++ "03")
        = some ⟨natOfDigits ("2021" : String).data, natOfDigits ("03" : String).data, 1⟩
    ∧ parse_release_date ("2021" ++ "-" ++ "03" ++ "-" ++ "15")
        = some ⟨natOfDigits ("2021" : String).data, natOfDigits ("03" : String).data,
            natOfDigits ("15" : String).data⟩
    ∧ parse_release_date_iso ("2021" ++ "-" ++ "03" ++ "-" ++ "15")
        = some (formatYMD ⟨natOfDigits ("2021" : String).data,
            natOfDigits ("03" : String).data, natOfDigits ("15" : String).data⟩) :=
  ⟨c9_release_date_parsing.1 "2021" rfl (by decide) (by decide),
   c9_release_date_parsing.2.1 "2021" "03" rfl rfl (by decide) (by decide) (by decide)
     (by decide) (by decide),
   c9_release_date_parsing.2.2.1 "2021" "03" "15" rfl rfl rfl (by decide) (by decide)
     (by decide) (by decide) (by decide) (by decide) (by decide) (by decide),
   c9_release_date_parsing.2.2.2 "2021" "03" "15" rfl rfl rfl (by decide) (by decide)
     (by decide) (by decide) (by decide) (by decide) (by decide) (by decide)⟩

/-! ## Claim C8 -/

/-- C8 counterexample: a response with no album-level `artists` key, although
its first track carries an artist profile and its title splits as
`Artist - Title`, makes the parse attempt fail with
`Artist data missing in API response` (and the whole `get_album_tracks` call
fail after the retries) instead of yielding an album result — there is no
artist-name fallback chain in the code. -/
theorem c8_counterexample :
    c8raw.artists = none
    ∧ c8raw.name = "Artist One - Great Album"
    ∧ trackArtistName ⟨some "spotify:track:t1", some "Song One", some "5",
        some ⟨some ["Artist One"]⟩⟩ = some "Artist One"
    ∧ parseAttempt (some c8raw) = Except.error "Artist data missing in API response"
    ∧ (get_album_tracks_run (fun _ => parseAttempt (some c8raw))
        (fun _ => (0 : ℚ))).result
      = Except.error ("Failed to fetch album tracks after " ++ toString 3
          ++ " attempts: " ++ String.intercalate "\n"
              ["Attempt " ++ toString 1 ++ ": " ++ "Artist data missing in API response",
               "Attempt " ++ toString 2 ++ ": " ++ "Artist data missing in API response",
               "Attempt " ++ toString 3 ++ ": " ++ "Artist data missing in API response"]) :=
  ⟨rfl, rfl, rfl, rfl, rfl⟩

/-- C8 (amended): the artist name is taken solely from the album-level
`artists.items` list: when that data is absent the parse attempt fails with
`Artist data missing in API response` (no track-level or title-splitting
fallback exists), and when it is present the returned album carries the first
item's name and id. -/
theorem c8_artist_extraction :
    (∀ au : RawAlbumUnion, au.artists = none →
        parseAttempt (some au) = Except.error "Artist data missing in API response")
    ∧ (∀ (au : RawAlbumUnion) (aobj : ArtistsObj), au.artists = some aobj →
        aobj.items = none →
        parseAttempt (some au) = Except.error "Artist data missing in API response")
    ∧ (∀ (au : RawAlbumUnion) (aobj : ArtistsObj) (it : ArtistItem)
          (rest : List ArtistItem) (r : AlbumResponseM),
        au.artists = some aobj → aobj.items = some (it :: rest) →
        parseAttempt (some au) = Except.ok r →
        r.artist_name = it.name ∧ r.artist_id = it.id) := by
  refine ⟨?_, ?_, ?_⟩
  · intro au h
    simp [parseAttempt, h]
  · intro au aobj h1 h2
    simp [parseAttempt, h1, h2]
  · intro au aobj it rest r h1 h2 hok
    simp only [parseAttempt, h1, h2] at hok
    rcases htv : au.tracksV2 with _ | tobj
    · rw [htv] at hok
      simp at hok
    · rw [htv] at hok
      dsimp only at hok
      rcases hti : tobj.items with _ | items
      · rw [hti] at hok
        simp at hok
      · rw [hti] at hok
        dsimp only at hok
        simp only [Except.ok.injEq] at hok
        subst hok
        exact ⟨rfl, rfl⟩

/-- C8 witness: the amended theorem applied to the fixture without
album-level artist data. -/
theorem c8_witness :
    c8raw.artists = none
    ∧ parseAttempt (some c8raw)
        = Except.error "Artist data missing in API response" :=
  ⟨rfl, c8_artist_extraction.1 c8raw rfl⟩

/-! ## Claim C10 -/

/-- C10: a track entry whose `playcount` field is absent is not skipped:
`int(track_data.get("playcount", 0))` yields a `Track` with playcount 0, which
therefore appears in the parsed track list (and becomes a zero-count metric
sample downstream). -/
theorem c10_missing_playcount_zero (it : TrackItemJ) (td : TrackObj)
    (uri nm : String)
    (h1 : it.track = some td) (h2 : td.playcount = none)
    (h3 : td.uri = some uri) (h4 : td.name = some nm)
    (h5 : td.artists = none
      ∨ ∃ (aobj : TrackArtistsObj) (n : String) (rest : List String),
          td.artists = some aobj ∧ aobj.items = some (n :: rest)) :
    ∃ t : TrackM, parseTrackItem it = some t ∧ t.playcount = 0 ∧ t.name = nm
      ∧ t.track_id = lastColonSeg uri
      ∧ ∀ pre post : List TrackItemJ,
          (pre ++ it :: post).filterMap parseTrackItem
            = pre.filterMap parseTrackItem ++ t :: post.filterMap parseTrackItem := by
  have hpc : trackPlaycount td = some 0 := by simp [trackPlaycount, h2]
  rcases h5 with h5 | ⟨aobj, n, rest, ha, hi⟩
  · have hp : parseTrackItem it = some ⟨lastColonSeg uri, nm, 0, ""⟩ := by
      simp [parseTrackItem, h1, h3, h4, hpc, trackArtistName, h5]
    exact ⟨⟨lastColonSeg uri, nm, 0, ""⟩, hp, rfl, rfl, rfl, fun pre post => by
      simp [List.filterMap_append, List.filterMap_cons, hp]⟩
  · have hp : parseTrackItem it = some ⟨lastColonSeg uri, nm, 0, n⟩ := by
      simp [parseTrackItem, h1, h3, h4, hpc, trackArtistName, ha, hi]
    exact ⟨⟨lastColonSeg uri, nm, 0, n⟩, hp, rfl, rfl, rfl, fun pre post => by
      simp [List.filterMap_append, List.filterMap_cons, hp]⟩

/-- C10 witness: a concrete track item with no `playcount` key parses to a
track with playcount 0, by the theorem. -/
theorem c10_witness :
    ∃ t : TrackM,
      parseTrackItem ⟨some ⟨some "spotify:track:t9", some "Quiet Song", none, none⟩⟩
        = some t
      ∧ t.playcount = 0 ∧ t.name = "Quiet Song"
      ∧ t.track_id = lastColonSeg "spotify:track:t9"
      ∧ ∀ pre post : List TrackItemJ,
          (pre ++ ⟨some ⟨some "spotify:track:t9", some "Quiet Song", none, none⟩⟩
              :: post).filterMap parseTrackItem
            = pre.filterMap parseTrackItem ++ t :: post.filterMap parseTrackItem :=
  c10_missing_playcount_zero
    ⟨some ⟨some "spotify:track:t9", some "Quiet Song", none, none⟩⟩
    ⟨some "spotify:track:t9", some "Quiet Song", none, none⟩
    "spotify:track:t9" "Quiet Song" rfl rfl rfl rfl (Or.inl rfl)

end StreamCount
